import Mathlib

/-!
# Verification of the hydraulic-erosion core

Shallow embedding of the erosion/scheduling core of the
`tessapower/hydraulic-erosion` repository, together with proofs of the
spec's testable properties.

Height buffers and change maps are flat row-major `Float32Array`s in the
source; a cell `(x, y)` of a `width × height` grid lives at flat index
`y * width + x`, and in-grid coordinate pairs are in bijection with the
flat indices `[0, width * height)`.  We model the buffers as total maps
`ℤ × ℤ → ℝ` keyed by cell coordinates (exact real arithmetic in place of
IEEE floats), and model the flat index computations separately where a
claim is about index bounds.
-/

set_option autoImplicit false

namespace HydraulicErosion

/-- A height buffer / change map: elevation (or pending delta) per cell. -/
abbrev Grid := ℤ × ℤ → ℝ

/-- The all-zero change map (`new Float32Array(w*h)` / `fill(0)`). -/
def zeroGrid : Grid := fun _ => 0

/-- `0 ≤ x < w ∧ 0 ≤ y < h`: the in-grid test
`x >= 0 && x < width && y >= 0 && y < height` of the brush loops. -/
def inGrid (w h x y : ℤ) : Prop := 0 ≤ x ∧ x < w ∧ 0 ≤ y ∧ y < h

instance (w h x y : ℤ) : Decidable (inGrid w h x y) := by
  unfold inGrid; infer_instance

/-- Flat row-major index `y * width + x` of cell `(x, y)`
(`BeyerErosion.ts`, e.g. `changes.push({index: y * width + x, ...})`). -/
def flatIdx (w x y : ℤ) : ℤ := y * w + x

/-! ## Radius brush (`BeyerErosion.ts` `erodeTerrain` / `depositSediment`)

Both routines enumerate offsets `(dx, dy)` with `-radius ≤ dx, dy ≤ radius`,
keep the offsets whose cell is in-grid and whose Euclidean distance is at
most `radius`, weight each kept offset by `max(0, radius - distance)`,
and add `amount * weight / totalWeight` to each kept cell when
`totalWeight > 0` (subtracting instead for erosion).

On the loop's domain the radius is nonnegative, so the source test
`Math.sqrt(dx*dx + dy*dy) <= radius` is equivalent to
`dx² + dy² ≤ radius²`, which keeps the qualifying set decidable. -/

/-- Offsets `(dx, dy)` kept by the brush loops at centre `(cx, cy)`:
in the square `[-r, r] × [-r, r]`, cell `(cx+dx, cy+dy)` in-grid, and
`dx² + dy² ≤ r²` (the source's `distance <= radius`). -/
def brushCells (w h cx cy r : ℤ) : Finset (ℤ × ℤ) :=
  ((Finset.Icc (-r) r) ×ˢ (Finset.Icc (-r) r)).filter
    (fun d => inGrid w h (cx + d.1) (cy + d.2) ∧ d.1 ^ 2 + d.2 ^ 2 ≤ r ^ 2)

/-- Brush weight `Math.max(0, radius - distance)` of offset `d`. -/
noncomputable def brushWeight (r : ℤ) (d : ℤ × ℤ) : ℝ :=
  max 0 ((r : ℝ) - Real.sqrt ((d.1 : ℝ) ^ 2 + (d.2 : ℝ) ^ 2))

/-- `totalWeight` accumulated over the qualifying cells. -/
noncomputable def totalWeight (w h cx cy r : ℤ) : ℝ :=
  ∑ d ∈ brushCells w h cx cy r, brushWeight r d

/-- `depositSediment(changeMap, position, width, height, amount)`:
centre at `(⌊px⌋, ⌊py⌋)`, and when `totalWeight > 0` add
`amount * weight/totalWeight` to every qualifying cell. -/
noncomputable def depositSediment (cm : Grid) (w h : ℤ) (px py : ℝ)
    (r : ℤ) (amount : ℝ) : Grid :=
  if 0 < totalWeight w h ⌊px⌋ ⌊py⌋ r then
    fun q =>
      if (q.1 - ⌊px⌋, q.2 - ⌊py⌋) ∈ brushCells w h ⌊px⌋ ⌊py⌋ r then
        cm q + amount *
          (brushWeight r (q.1 - ⌊px⌋, q.2 - ⌊py⌋) / totalWeight w h ⌊px⌋ ⌊py⌋ r)
      else cm q
  else cm

/-- `erodeTerrain(changeMap, position, width, height, amount)`: identical
enumeration and weights, but `changeMap[index] -= amount * weight/W`. -/
noncomputable def erodeTerrain (cm : Grid) (w h : ℤ) (px py : ℝ)
    (r : ℤ) (amount : ℝ) : Grid :=
  if 0 < totalWeight w h ⌊px⌋ ⌊py⌋ r then
    fun q =>
      if (q.1 - ⌊px⌋, q.2 - ⌊py⌋) ∈ brushCells w h ⌊px⌋ ⌊py⌋ r then
        cm q - amount *
          (brushWeight r (q.1 - ⌊px⌋, q.2 - ⌊py⌋) / totalWeight w h ⌊px⌋ ⌊py⌋ r)
      else cm q
  else cm

/-! ### Brush facts -/

theorem brushWeight_nonneg (r : ℤ) (d : ℤ × ℤ) : 0 ≤ brushWeight r d :=
  le_max_left _ _

theorem center_mem_brushCells {w h cx cy r : ℤ} (hr : 0 ≤ r)
    (hx0 : 0 ≤ cx) (hxw : cx < w) (hy0 : 0 ≤ cy) (hyh : cy < h) :
    ((0, 0) : ℤ × ℤ) ∈ brushCells w h cx cy r := by
  unfold brushCells inGrid
  simp only [Finset.mem_filter, Finset.mem_product, Finset.mem_Icc]
  constructor
  · constructor <;> omega
  · constructor
    · exact ⟨by omega, by omega, by omega, by omega⟩
    · nlinarith

theorem brushWeight_center (r : ℤ) : brushWeight r (0, 0) = max 0 (r : ℝ) := by
  unfold brushWeight
  norm_num

theorem totalWeight_pos {w h cx cy r : ℤ} (hr : 1 ≤ r)
    (hx0 : 0 ≤ cx) (hxw : cx < w) (hy0 : 0 ≤ cy) (hyh : cy < h) :
    0 < totalWeight w h cx cy r := by
  unfold totalWeight
  apply Finset.sum_pos'
  · exact fun d _ => brushWeight_nonneg r d
  · refine ⟨(0, 0), center_mem_brushCells (by omega) hx0 hxw hy0 hyh, ?_⟩
    rw [brushWeight_center]
    have : (1 : ℝ) ≤ (r : ℝ) := by exact_mod_cast hr
    have h01 : (0 : ℝ) < (r : ℝ) := by linarith
    rw [max_eq_right (le_of_lt h01)]
    exact h01

theorem sum_normalizedWeights {w h cx cy r : ℤ}
    (hW : 0 < totalWeight w h cx cy r) :
    ∑ d ∈ brushCells w h cx cy r,
      brushWeight r d / totalWeight w h cx cy r = 1 := by
  rw [← Finset.sum_div]
  exact div_self (ne_of_gt hW)

theorem depositSediment_delta (cm : Grid) (w h : ℤ) (px py : ℝ)
    (r : ℤ) (amount : ℝ) (hW : 0 < totalWeight w h ⌊px⌋ ⌊py⌋ r)
    {d : ℤ × ℤ} (hd : d ∈ brushCells w h ⌊px⌋ ⌊py⌋ r) :
    depositSediment cm w h px py r amount (⌊px⌋ + d.1, ⌊py⌋ + d.2)
      = cm (⌊px⌋ + d.1, ⌊py⌋ + d.2)
        + amount * (brushWeight r d / totalWeight w h ⌊px⌋ ⌊py⌋ r) := by
  have he : (⌊px⌋ + d.1 - ⌊px⌋, ⌊py⌋ + d.2 - ⌊py⌋) = d := by
    cases d; simp
  simp only [depositSediment, if_pos hW, he, if_pos hd]

theorem erodeTerrain_delta (cm : Grid) (w h : ℤ) (px py : ℝ)
    (r : ℤ) (amount : ℝ) (hW : 0 < totalWeight w h ⌊px⌋ ⌊py⌋ r)
    {d : ℤ × ℤ} (hd : d ∈ brushCells w h ⌊px⌋ ⌊py⌋ r) :
    erodeTerrain cm w h px py r amount (⌊px⌋ + d.1, ⌊py⌋ + d.2)
      = cm (⌊px⌋ + d.1, ⌊py⌋ + d.2)
        - amount * (brushWeight r d / totalWeight w h ⌊px⌋ ⌊py⌋ r) := by
  have he : (⌊px⌋ + d.1 - ⌊px⌋, ⌊py⌋ + d.2 - ⌊py⌋) = d := by
    cases d; simp
  simp only [erodeTerrain, if_pos hW, he, if_pos hd]

/-- C1: for a radius-brush call (`depositSediment` / `erodeTerrain`) whose
brush disc lies fully inside the grid and whose radius is at least 1, the
sum over the affected cells of the deltas added to the change buffer equals
the given amount (negated for erosion); equivalently, the normalized
weights `max(0, radius - distance)/totalWeight` sum to 1. -/
theorem brush_mass_conservation (cm : Grid) (w h : ℤ) (px py : ℝ)
    (r : ℤ) (amount : ℝ) (hr : 1 ≤ r)
    (hx0 : 0 ≤ ⌊px⌋ - r) (hxw : ⌊px⌋ + r < w)
    (hy0 : 0 ≤ ⌊py⌋ - r) (hyh : ⌊py⌋ + r < h) :
    (∑ d ∈ brushCells w h ⌊px⌋ ⌊py⌋ r,
        (depositSediment cm w h px py r amount (⌊px⌋ + d.1, ⌊py⌋ + d.2)
          - cm (⌊px⌋ + d.1, ⌊py⌋ + d.2))) = amount
    ∧ (∑ d ∈ brushCells w h ⌊px⌋ ⌊py⌋ r,
        (erodeTerrain cm w h px py r amount (⌊px⌋ + d.1, ⌊py⌋ + d.2)
          - cm (⌊px⌋ + d.1, ⌊py⌋ + d.2))) = -amount
    ∧ (∑ d ∈ brushCells w h ⌊px⌋ ⌊py⌋ r,
        brushWeight r d / totalWeight w h ⌊px⌋ ⌊py⌋ r) = 1 := by
  have hW : 0 < totalWeight w h ⌊px⌋ ⌊py⌋ r :=
    totalWeight_pos hr (by omega) (by omega) (by omega) (by omega)
  refine ⟨?_, ?_, sum_normalizedWeights hW⟩
  · calc ∑ d ∈ brushCells w h ⌊px⌋ ⌊py⌋ r,
          (depositSediment cm w h px py r amount (⌊px⌋ + d.1, ⌊py⌋ + d.2)
            - cm (⌊px⌋ + d.1, ⌊py⌋ + d.2))
        = ∑ d ∈ brushCells w h ⌊px⌋ ⌊py⌋ r,
            amount * (brushWeight r d / totalWeight w h ⌊px⌋ ⌊py⌋ r) :=
          Finset.sum_congr rfl (fun d hd => by
            rw [depositSediment_delta cm w h px py r amount hW hd]; ring)
      _ = amount * ∑ d ∈ brushCells w h ⌊px⌋ ⌊py⌋ r,
            brushWeight r d / totalWeight w h ⌊px⌋ ⌊py⌋ r := by
          rw [Finset.mul_sum]
      _ = amount := by rw [sum_normalizedWeights hW, mul_one]
  · calc ∑ d ∈ brushCells w h ⌊px⌋ ⌊py⌋ r,
          (erodeTerrain cm w h px py r amount (⌊px⌋ + d.1, ⌊py⌋ + d.2)
            - cm (⌊px⌋ + d.1, ⌊py⌋ + d.2))
        = ∑ d ∈ brushCells w h ⌊px⌋ ⌊py⌋ r,
            -(amount * (brushWeight r d / totalWeight w h ⌊px⌋ ⌊py⌋ r)) :=
          Finset.sum_congr rfl (fun d hd => by
            rw [erodeTerrain_delta cm w h px py r amount hW hd]; ring)
      _ = -(amount * ∑ d ∈ brushCells w h ⌊px⌋ ⌊py⌋ r,
            brushWeight r d / totalWeight w h ⌊px⌋ ⌊py⌋ r) := by
          rw [Finset.sum_neg_distrib, Finset.mul_sum]
      _ = -amount := by rw [sum_normalizedWeights hW, mul_one]

/-- Witness for C1 at a concrete input: grid `4 × 4`, centre `(1.5, 1.5)`,
radius 1, amount 2, zero change buffer. -/
theorem brush_mass_conservation_witness :
    ((1 : ℤ) ≤ 1 ∧ 0 ≤ ⌊(1.5 : ℝ)⌋ - 1 ∧ ⌊(1.5 : ℝ)⌋ + 1 < 4
      ∧ 0 ≤ ⌊(1.5 : ℝ)⌋ - 1 ∧ ⌊(1.5 : ℝ)⌋ + 1 < 4)
    ∧ ((∑ d ∈ brushCells 4 4 ⌊(1.5 : ℝ)⌋ ⌊(1.5 : ℝ)⌋ 1,
        (depositSediment zeroGrid 4 4 1.5 1.5 1 2 (⌊(1.5 : ℝ)⌋ + d.1, ⌊(1.5 : ℝ)⌋ + d.2)
          - zeroGrid (⌊(1.5 : ℝ)⌋ + d.1, ⌊(1.5 : ℝ)⌋ + d.2))) = 2
    ∧ (∑ d ∈ brushCells 4 4 ⌊(1.5 : ℝ)⌋ ⌊(1.5 : ℝ)⌋ 1,
        (erodeTerrain zeroGrid 4 4 1.5 1.5 1 2 (⌊(1.5 : ℝ)⌋ + d.1, ⌊(1.5 : ℝ)⌋ + d.2)
          - zeroGrid (⌊(1.5 : ℝ)⌋ + d.1, ⌊(1.5 : ℝ)⌋ + d.2))) = -2
    ∧ (∑ d ∈ brushCells 4 4 ⌊(1.5 : ℝ)⌋ ⌊(1.5 : ℝ)⌋ 1,
        brushWeight 1 d / totalWeight 4 4 ⌊(1.5 : ℝ)⌋ ⌊(1.5 : ℝ)⌋ 1) = 1) := by
  have hfl : ⌊(1.5 : ℝ)⌋ = 1 := by
    rw [Int.floor_eq_iff]; norm_num
  refine ⟨⟨le_refl 1, by rw [hfl]; norm_num, by rw [hfl]; norm_num,
    by rw [hfl]; norm_num, by rw [hfl]; norm_num⟩, ?_⟩
  exact brush_mass_conservation zeroGrid 4 4 1.5 1.5 1 2 (le_refl 1)
    (by rw [hfl]; norm_num) (by rw [hfl]; norm_num)
    (by rw [hfl]; norm_num) (by rw [hfl]; norm_num)

/-- C8: a radius-brush call whose total weight over the qualifying cells is
zero leaves the change buffer completely unchanged (the guarded
normalization is skipped, so no division by zero occurs). -/
theorem brush_zero_weight_noop (cm : Grid) (w h : ℤ) (px py : ℝ)
    (r : ℤ) (amount : ℝ) (hW : totalWeight w h ⌊px⌋ ⌊py⌋ r = 0) :
    depositSediment cm w h px py r amount = cm
    ∧ erodeTerrain cm w h px py r amount = cm := by
  constructor
  · simp [depositSediment, hW]
  · simp [erodeTerrain, hW]

/-- Witness for C8 at a concrete input: centre `(-100, -100)` entirely
off a `3 × 3` grid, radius 1 — no in-grid cell qualifies. -/
theorem brush_zero_weight_noop_witness :
    totalWeight 3 3 ⌊(-100 : ℝ)⌋ ⌊(-100 : ℝ)⌋ 1 = 0
    ∧ (depositSediment zeroGrid 3 3 (-100) (-100) 1 5 = zeroGrid
      ∧ erodeTerrain zeroGrid 3 3 (-100) (-100) 1 5 = zeroGrid) := by
  have hfl : ⌊(-100 : ℝ)⌋ = -100 := by norm_num
  have hempty : brushCells 3 3 (-100) (-100) 1 = ∅ := by decide
  have hW : totalWeight 3 3 ⌊(-100 : ℝ)⌋ ⌊(-100 : ℝ)⌋ 1 = 0 := by
    rw [hfl]; unfold totalWeight; rw [hempty, Finset.sum_empty]
  exact ⟨hW, brush_zero_weight_noop zeroGrid 3 3 (-100) (-100) 1 5 hW⟩

/-! ## Change-map application and box blur
(`BeyerErosion.ts` `applyChanges`, `applyChangeMapWithBlur`, `blurArray`) -/

/-- Neighbourhood offsets kept by `blurArray`'s inner loops at cell `q`:
the square `[-r, r] × [-r, r]`, restricted to in-grid neighbours. -/
def blurNbhd (w h r : ℤ) (q : ℤ × ℤ) : Finset (ℤ × ℤ) :=
  ((Finset.Icc (-r) r) ×ˢ (Finset.Icc (-r) r)).filter
    (fun d => inGrid w h (q.1 + d.1) (q.2 + d.2))

/-- `blurArray(input, width, height, radius)`: box blur; each output cell is
`sum / count` over the in-grid neighbourhood, or 0 when the count is 0. -/
noncomputable def blurArray (input : Grid) (w h r : ℤ) : Grid := fun q =>
  if 0 < (blurNbhd w h r q).card then
    (∑ d ∈ blurNbhd w h r q, input (q.1 + d.1, q.2 + d.2))
      / ((blurNbhd w h r q).card : ℝ)
  else 0

/-- `applyChangeMapWithBlur(heights, changeMap, width, height)`: blend the
blurred and raw change maps by `blendFactor` and add to the heights; with
blurring disabled, add the raw change map. -/
noncomputable def applyChangeMapWithBlur (enableBlurring : Bool) (blurRadius : ℤ)
    (blendFactor : ℝ) (heights cm : Grid) (w h : ℤ) : Grid :=
  if enableBlurring then
    fun q => heights q
      + (blurArray cm w h blurRadius q * blendFactor + cm q * (1 - blendFactor))
  else
    fun q => heights q + cm q

/-- `applyChanges(heights, width, height)` of the ridge-follower strategy:
merge the change map into the heights (with blur when enabled), then reset
the change map to all zero.  Returns `(new heights, new change map)`. -/
noncomputable def applyChanges (enableBlurring : Bool) (blurRadius : ℤ)
    (blendFactor : ℝ) (heights cm : Grid) (w h : ℤ) : Grid × Grid :=
  if enableBlurring then
    (applyChangeMapWithBlur enableBlurring blurRadius blendFactor heights cm w h,
      zeroGrid)
  else
    (fun q => heights q + cm q, zeroGrid)

theorem blurArray_zero (w h r : ℤ) : blurArray zeroGrid w h r = zeroGrid := by
  funext q
  unfold blurArray zeroGrid
  rw [Finset.sum_const_zero]
  by_cases hc : 0 < (blurNbhd w h r q).card
  · rw [if_pos hc, zero_div]
  · rw [if_neg hc]

theorem applyChanges_zero_cm (eb : Bool) (br : ℤ) (bf : ℝ)
    (heights : Grid) (w h : ℤ) :
    applyChanges eb br bf heights zeroGrid w h = (heights, zeroGrid) := by
  unfold applyChanges applyChangeMapWithBlur
  cases eb with
  | false => simp [zeroGrid]
  | true =>
    simp only [if_pos]
    refine Prod.ext ?_ rfl
    funext q
    rw [blurArray_zero]
    simp [zeroGrid]

/-- C4: after the ridge-follower's `applyChanges`, the change map is all
zero; a second `applyChanges` with no intervening `simulateStep` applies a
zero delta and leaves every cell of the height buffer unchanged, including
when blurring is enabled (the blur-and-blend of an all-zero map is zero). -/
theorem applyChanges_second_noop (eb : Bool) (br : ℤ) (bf : ℝ)
    (heights cm : Grid) (w h : ℤ) :
    (applyChanges eb br bf heights cm w h).2 = zeroGrid
    ∧ applyChanges eb br bf (applyChanges eb br bf heights cm w h).1
        (applyChanges eb br bf heights cm w h).2 w h
      = ((applyChanges eb br bf heights cm w h).1, zeroGrid) := by
  have h2 : (applyChanges eb br bf heights cm w h).2 = zeroGrid := by
    unfold applyChanges
    cases eb <;> simp
  refine ⟨h2, ?_⟩
  rw [h2, applyChanges_zero_cm]

/-! ## Scheduler (`Simulator.ts`)

The scheduler's counters and state transitions do not depend on the height
buffer, so the buffer and mesh effects of `update` are omitted here.
Wall-clock time is external nondeterminism: each tick carries
`preElapsed = updateEnd - updateStart` (the time since the previous tick's
end, measured before the stepping loop) and a sequence `dur` of per-step
durations; the loop's clock starts at the `updateEnd` reading, so the k-th
`performance.now() - updateEnd` test reads `dur 0 + ... + dur (k-1)`.
Times are exact rationals in place of JS doubles. -/

inductive SimSt
  | READY
  | RUNNING
  | PAUSED
  | COMPLETE
deriving DecidableEq

/-- The scheduler-relevant configuration: `erosionModel.getIterations()`
and the per-tick time budget (`DEFAULT_TIME_BUDGET = 16`). -/
structure SimParams where
  maxIterations : ℕ
  timeBudget : ℚ
deriving DecidableEq

/-- The mutable scheduler state: `state` and `iterationsCompleted`. -/
structure SimState where
  state : SimSt
  iterationsCompleted : ℕ
deriving DecidableEq

/-- Fresh `Simulator`: `state = "READY"`, `iterationsCompleted = 0`. -/
def initSimState : SimState := ⟨SimSt.READY, 0⟩

/-- `start()`: set state to RUNNING (height-map bookkeeping omitted). -/
def simStart (s : SimState) : SimState := { s with state := SimSt.RUNNING }

/-- `pause()`: set state to PAUSED, unconditionally. -/
def simPause (s : SimState) : SimState := { s with state := SimSt.PAUSED }

/-- The stepping loop of `update()`:
`while (iterationsCompleted < maxIterations && elapsed < timeAllowance)`,
one `simulateStep` plus increment per pass.  `fuel` bounds the recursion;
`maxIterations - iterationsCompleted` passes always suffice because each
pass increments the counter and the first conjunct then fails. -/
def erosionLoop (maxIter : ℕ) (allowance : ℚ) (dur : ℕ → ℚ) :
    ℕ → ℕ → ℚ → ℕ → ℕ
  | 0, completed, _, _ => completed
  | fuel + 1, completed, elapsed, j =>
    if completed < maxIter ∧ elapsed < allowance then
      erosionLoop maxIter allowance dur fuel (completed + 1) (elapsed + dur j) (j + 1)
    else completed

/-- `getProgress()`: `(iterationsCompleted / maxIterations) * 100` when the
iteration cap is positive, else 0. -/
def getProgress (maxIter completed : ℕ) : ℚ :=
  if 0 < maxIter then ((completed : ℚ) / (maxIter : ℚ)) * 100 else 0

/-- `update()`: no-op unless RUNNING; otherwise run the stepping loop with
`timeAllowance = max(1, timeBudget - preElapsed)` and transition to
COMPLETE when `getProgress() === 100`. -/
def update (p : SimParams) (preElapsed : ℚ) (dur : ℕ → ℚ)
    (s : SimState) : SimState :=
  if s.state ≠ SimSt.RUNNING then s
  else
    { state :=
        if getProgress p.maxIterations
            (erosionLoop p.maxIterations (max 1 (p.timeBudget - preElapsed)) dur
              (p.maxIterations - s.iterationsCompleted) s.iterationsCompleted 0 0)
            = 100
        then SimSt.COMPLETE else s.state
      iterationsCompleted :=
        erosionLoop p.maxIterations (max 1 (p.timeBudget - preElapsed)) dur
          (p.maxIterations - s.iterationsCompleted) s.iterationsCompleted 0 0 }

/-- One external call into the scheduler. -/
inductive SimAction
  | start
  | pause
  | tick (preElapsed : ℚ) (dur : ℕ → ℚ)

/-- Dispatch one call. -/
def simStep (p : SimParams) (s : SimState) : SimAction → SimState
  | .start => simStart s
  | .pause => simPause s
  | .tick pre dur => update p pre dur s

/-- Run a sequence of calls against a fresh simulator. -/
def runActions (p : SimParams) (acts : List SimAction) : SimState :=
  acts.foldl (simStep p) initSimState

/-! ### Scheduler facts -/

theorem erosionLoop_ge (maxIter : ℕ) (allowance : ℚ) (dur : ℕ → ℚ) :
    ∀ (fuel completed : ℕ) (elapsed : ℚ) (j : ℕ),
      completed ≤ erosionLoop maxIter allowance dur fuel completed elapsed j := by
  intro fuel
  induction fuel with
  | zero => intro completed elapsed j; exact le_refl _
  | succ f ih =>
    intro completed elapsed j
    rw [erosionLoop]
    by_cases hc : completed < maxIter ∧ elapsed < allowance
    · rw [if_pos hc]
      exact le_trans (Nat.le_succ _) (ih (completed + 1) (elapsed + dur j) (j + 1))
    · rw [if_neg hc]

theorem erosionLoop_le (maxIter : ℕ) (allowance : ℚ) (dur : ℕ → ℚ) :
    ∀ (fuel completed : ℕ) (elapsed : ℚ) (j : ℕ), completed ≤ maxIter →
      erosionLoop maxIter allowance dur fuel completed elapsed j ≤ maxIter := by
  intro fuel
  induction fuel with
  | zero => intro completed elapsed j hle; exact hle
  | succ f ih =>
    intro completed elapsed j hle
    rw [erosionLoop]
    by_cases hc : completed < maxIter ∧ elapsed < allowance
    · rw [if_pos hc]
      exact ih (completed + 1) (elapsed + dur j) (j + 1) hc.1
    · rw [if_neg hc]; exact hle

theorem simStep_completed_mono (p : SimParams) (s : SimState) (a : SimAction) :
    s.iterationsCompleted ≤ (simStep p s a).iterationsCompleted := by
  cases a with
  | start => exact le_refl _
  | pause => exact le_refl _
  | tick pre dur =>
    simp only [simStep, update]
    by_cases hs : s.state ≠ SimSt.RUNNING
    · rw [if_pos hs]
    · rw [if_neg hs]
      exact erosionLoop_ge _ _ _ _ _ _ _

theorem simStep_completed_le (p : SimParams) (s : SimState) (a : SimAction)
    (hle : s.iterationsCompleted ≤ p.maxIterations) :
    (simStep p s a).iterationsCompleted ≤ p.maxIterations := by
  cases a with
  | start => exact hle
  | pause => exact hle
  | tick pre dur =>
    simp only [simStep, update]
    by_cases hs : s.state ≠ SimSt.RUNNING
    · rw [if_pos hs]; exact hle
    · rw [if_neg hs]
      exact erosionLoop_le _ _ _ _ _ _ _ hle

theorem foldl_completed_mono (p : SimParams) :
    ∀ (acts : List SimAction) (s : SimState),
      s.iterationsCompleted ≤ (acts.foldl (simStep p) s).iterationsCompleted := by
  intro acts
  induction acts with
  | nil => intro s; exact le_refl _
  | cons a rest ih =>
    intro s
    rw [List.foldl_cons]
    exact le_trans (simStep_completed_mono p s a) (ih (simStep p s a))

theorem foldl_completed_le (p : SimParams) :
    ∀ (acts : List SimAction) (s : SimState),
      s.iterationsCompleted ≤ p.maxIterations →
      (acts.foldl (simStep p) s).iterationsCompleted ≤ p.maxIterations := by
  intro acts
  induction acts with
  | nil => intro s hle; exact hle
  | cons a rest ih =>
    intro s hle
    rw [List.foldl_cons]
    exact ih (simStep p s a) (simStep_completed_le p s a hle)

/-- C2 (amended): over any sequence of `start()`, `pause()` and `tick()`
calls, `iterationsCompleted` is non-decreasing and never exceeds
`getIterations()`; and any `tick()` that begins in the RUNNING state and
ends with `iterationsCompleted = getIterations() > 0` leaves the scheduler
COMPLETE.  (The unrestricted claim "equality implies COMPLETE" fails:
`pause()` is unconditional, see the counterexample.) -/
theorem simulator_iteration_invariant (p : SimParams) (acts : List SimAction) :
    (runActions p acts).iterationsCompleted ≤ p.maxIterations
    ∧ (∀ n : ℕ,
        ((acts.take n).foldl (simStep p) initSimState).iterationsCompleted
          ≤ (runActions p acts).iterationsCompleted)
    ∧ (∀ (s : SimState) (pre : ℚ) (dur : ℕ → ℚ),
        s.state = SimSt.RUNNING → 0 < p.maxIterations →
        (update p pre dur s).iterationsCompleted = p.maxIterations →
        (update p pre dur s).state = SimSt.COMPLETE) := by
  refine ⟨foldl_completed_le p acts initSimState (Nat.zero_le _), ?_, ?_⟩
  · intro n
    unfold runActions
    conv_rhs => rw [← List.take_append_drop n acts]
    rw [List.foldl_append]
    exact foldl_completed_mono p (acts.drop n) _
  · intro s pre dur hrun hmax hcomp
    have hne : ¬ s.state ≠ SimSt.RUNNING := by rw [hrun]; exact fun hh => hh rfl
    unfold update at hcomp ⊢
    rw [if_neg hne] at hcomp ⊢
    simp only at hcomp
    rw [hcomp]
    have hprog : getProgress p.maxIterations p.maxIterations = 100 := by
      unfold getProgress
      rw [if_pos hmax]
      have hm : ((p.maxIterations : ℚ)) ≠ 0 := by
        exact_mod_cast Nat.pos_iff_ne_zero.mp hmax
      rw [div_self hm, one_mul]
    rw [if_pos hprog]

/-- Witness for C2's amended theorem at a concrete input:
`maxIterations = 1`, budget 16, calls `[start, tick]`. -/
theorem simulator_iteration_invariant_witness :
    (runActions ⟨1, 16⟩ [SimAction.start, SimAction.tick 0 (fun _ => 0)]).iterationsCompleted
      ≤ (1 : ℕ)
    ∧ (∀ n : ℕ,
        (([SimAction.start, SimAction.tick 0 (fun _ => 0)].take n).foldl
            (simStep ⟨1, 16⟩) initSimState).iterationsCompleted
          ≤ (runActions ⟨1, 16⟩
              [SimAction.start, SimAction.tick 0 (fun _ => 0)]).iterationsCompleted)
    ∧ (∀ (s : SimState) (pre : ℚ) (dur : ℕ → ℚ),
        s.state = SimSt.RUNNING → 0 < (1 : ℕ) →
        (update ⟨1, 16⟩ pre dur s).iterationsCompleted = 1 →
        (update ⟨1, 16⟩ pre dur s).state = SimSt.COMPLETE) :=
  simulator_iteration_invariant ⟨1, 16⟩ [SimAction.start, SimAction.tick 0 (fun _ => 0)]

/-- C2 counterexample: `pause()` sets PAUSED unconditionally, so after
`start(); tick()` completes all iterations (cap 1), a `pause()` leaves
`iterationsCompleted = getIterations()` with state PAUSED, not COMPLETE —
refuting "equality implies COMPLETE" as stated. -/
theorem simulator_equality_not_complete_cex :
    (runActions ⟨1, 16⟩
        [SimAction.start, SimAction.tick 0 (fun _ => 0), SimAction.pause]).iterationsCompleted
      = (⟨1, 16⟩ : SimParams).maxIterations
    ∧ (runActions ⟨1, 16⟩
        [SimAction.start, SimAction.tick 0 (fun _ => 0), SimAction.pause]).state
      ≠ SimSt.COMPLETE := by
  have hloop : erosionLoop 1 (max 1 ((16 : ℚ) - 0)) (fun _ => 0) (1 - 0) 0 0 0 = 1 := by
    rw [show (1 - 0 : ℕ) = 0 + 1 from rfl, erosionLoop,
      if_pos ⟨Nat.zero_lt_one, lt_of_lt_of_le one_pos (le_max_left _ _)⟩]
    rfl
  have h1 : simStep ⟨1, 16⟩ initSimState SimAction.start = ⟨SimSt.RUNNING, 0⟩ := rfl
  have hprog : getProgress 1 1 = 100 := by
    unfold getProgress
    norm_num
  have h2 : simStep ⟨1, 16⟩ ⟨SimSt.RUNNING, 0⟩ (SimAction.tick 0 (fun _ => 0))
      = ⟨SimSt.COMPLETE, 1⟩ := by
    simp only [simStep, update, ne_eq, not_true_eq_false, if_false, hloop, hprog,
      if_true]
  have h3 : simStep ⟨1, 16⟩ ⟨SimSt.COMPLETE, 1⟩ SimAction.pause
      = ⟨SimSt.PAUSED, 1⟩ := rfl
  have hrun : runActions ⟨1, 16⟩
      [SimAction.start, SimAction.tick 0 (fun _ => 0), SimAction.pause]
      = ⟨SimSt.PAUSED, 1⟩ := by
    unfold runActions
    rw [List.foldl_cons, h1, List.foldl_cons, h2, List.foldl_cons, h3, List.foldl_nil]
  rw [hrun]
  exact ⟨rfl, fun hcon => SimSt.noConfusion hcon⟩

/-- C3: any `tick()` entered in the RUNNING state with
`iterationsCompleted < getIterations()` executes at least one
`simulateStep` — the counter strictly increases — no matter how large
`preElapsed` (the wall-clock time consumed before the stepping loop) is:
the allowance is clamped to at least 1 and the loop clock starts at 0. -/
theorem tick_forward_progress (p : SimParams) (s : SimState) (pre : ℚ)
    (dur : ℕ → ℚ) (hrun : s.state = SimSt.RUNNING)
    (hlt : s.iterationsCompleted < p.maxIterations) :
    s.iterationsCompleted + 1 ≤ (update p pre dur s).iterationsCompleted := by
  have hne : ¬ s.state ≠ SimSt.RUNNING := by rw [hrun]; exact fun hh => hh rfl
  unfold update
  rw [if_neg hne]
  simp only
  obtain ⟨f, hf⟩ : ∃ f, p.maxIterations - s.iterationsCompleted = f + 1 :=
    ⟨p.maxIterations - s.iterationsCompleted - 1, by omega⟩
  rw [hf, erosionLoop]
  have hcond : s.iterationsCompleted < p.maxIterations
      ∧ (0 : ℚ) < max 1 (p.timeBudget - pre) :=
    ⟨hlt, lt_of_lt_of_le one_pos (le_max_left _ _)⟩
  rw [if_pos hcond]
  exact erosionLoop_ge _ _ _ _ _ _ _

/-- Witness for C3 at a concrete input: cap 2, budget 16, tick entered
RUNNING at 0 completed iterations with `preElapsed = 100 > 16` and huge
step durations — the counter still advances. -/
theorem tick_forward_progress_witness :
    (⟨SimSt.RUNNING, 0⟩ : SimState).state = SimSt.RUNNING
    ∧ (⟨SimSt.RUNNING, 0⟩ : SimState).iterationsCompleted < (2 : ℕ)
    ∧ (⟨SimSt.RUNNING, 0⟩ : SimState).iterationsCompleted + 1
        ≤ (update ⟨2, 16⟩ 100 (fun _ => 1000) ⟨SimSt.RUNNING, 0⟩).iterationsCompleted :=
  ⟨rfl, by decide,
    tick_forward_progress ⟨2, 16⟩ ⟨SimSt.RUNNING, 0⟩ 100 (fun _ => 1000) rfl (by decide)⟩

/-! ## Ridge-follower droplet (`BeyerErosion.ts`)

The `randomFn` random-number source is modelled as a fixed sequence
`seq : ℕ → ℝ` together with a cursor `k`; every `randomFn()` call reads
`seq k` and advances the cursor. -/

/-- `ErosionParams` of the ridge-follower strategy (minus `randomFn`,
which is threaded separately). -/
structure BeyerParams where
  iterations : ℕ
  inertia : ℝ
  capacity : ℝ
  minSlope : ℝ
  erosionSpeed : ℝ
  depositionSpeed : ℝ
  evaporationSpeed : ℝ
  gravity : ℝ
  maxPath : ℝ
  erosionRadius : ℤ
  depositionRadius : ℤ
  minLifetime : ℝ
  maxLifetime : ℝ
  minWater : ℝ
  maxWater : ℝ
  enableBlurring : Bool
  blurRadius : ℤ
  blendFactor : ℝ

/-- `BeyerErosion.DEFAULT_PARAMS`. -/
noncomputable def DEFAULT_PARAMS : BeyerParams :=
  ⟨300000, 0.3, 8, 0.005, 0.7, 0.2, 0.02, 9.81, 64, 5, 6,
    0.5, 1.5, 0.7, 1.3, true, 1, 0.5⟩

/-- `BeyerErosion.EPSILON = 1e-3`. -/
noncomputable def beyerEPSILON : ℝ := 1e-3

/-- `Droplet.ts`: position, direction, velocity, water, sediment. -/
structure Droplet where
  posX : ℝ
  posY : ℝ
  dirX : ℝ
  dirY : ℝ
  velocity : ℝ
  water : ℝ
  sediment : ℝ

/-- Corner-coordinate clamp `Math.max(0, Math.min(v, dim - 2))` used by
`calculateGradient` and `interpolateHeight`. -/
def clampCo (v dim : ℤ) : ℤ := max 0 (min v (dim - 2))

/-- `calculateGradient(heights, position, width, height)`: bilinear gradient
from the four clamped corner samples. -/
noncomputable def calculateGradient (hts : Grid) (w h : ℤ) (px py : ℝ) : ℝ × ℝ :=
  let u := px - (⌊px⌋ : ℝ)
  let v := py - (⌊py⌋ : ℝ)
  let cx := clampCo ⌊px⌋ w
  let cy := clampCo ⌊py⌋ h
  let h00 := hts (cx, cy)
  let h10 := hts (cx + 1, cy)
  let h01 := hts (cx, cy + 1)
  let h11 := hts (cx + 1, cy + 1)
  ((h10 - h00) * (1 - v) + (h11 - h01) * v,
    (h01 - h00) * (1 - u) + (h11 - h10) * u)

/-- `interpolateHeight(heights, position, width, height)`: bilinear height
from the four clamped corner samples. -/
noncomputable def interpolateHeight (hts : Grid) (w h : ℤ) (px py : ℝ) : ℝ :=
  let u := px - (⌊px⌋ : ℝ)
  let v := py - (⌊py⌋ : ℝ)
  let cx := clampCo ⌊px⌋ w
  let cy := clampCo ⌊py⌋ h
  hts (cx, cy) * (1 - u) * (1 - v) + hts (cx + 1, cy) * u * (1 - v)
    + hts (cx, cy + 1) * (1 - u) * v + hts (cx + 1, cy + 1) * u * v

/-- `THREE.Vector2.length()`. -/
noncomputable def vlen2 (x y : ℝ) : ℝ := Real.sqrt (x ^ 2 + y ^ 2)

/-- `THREE.Vector2.normalize()`: `divideScalar(length || 1)` — a zero
vector is left unchanged. -/
noncomputable def normalize2 (x y : ℝ) : ℝ × ℝ :=
  if vlen2 x y = 0 then (x, y) else (x / vlen2 x y, y / vlen2 x y)

/-- Blended, normalised direction
`normalize(dir·inertia − gradient·(1−inertia))` (steps before the
degenerate-gradient fallback). -/
noncomputable def beyerBlendDir (p : BeyerParams) (hts : Grid) (w h : ℤ)
    (d : Droplet) : ℝ × ℝ :=
  normalize2
    (d.dirX * p.inertia - (calculateGradient hts w h d.posX d.posY).1 * (1 - p.inertia))
    (d.dirY * p.inertia - (calculateGradient hts w h d.posX d.posY).2 * (1 - p.inertia))

/-- Step direction after the fallback: when the blended direction's length
is below `EPSILON`, substitute `normalize(cos θ, sin θ)` with
`θ = randomFn()·π·2`; `rv` is that `randomFn()` draw. -/
noncomputable def beyerDir (p : BeyerParams) (hts : Grid) (w h : ℤ)
    (d : Droplet) (rv : ℝ) : ℝ × ℝ :=
  if vlen2 (beyerBlendDir p hts w h d).1 (beyerBlendDir p hts w h d).2
      < beyerEPSILON then
    normalize2 (Real.cos (rv * Real.pi * 2)) (Real.sin (rv * Real.pi * 2))
  else beyerBlendDir p hts w h d

/-- Post-move x position `origPosition.x + direction.x`. -/
noncomputable def beyerNewX (p : BeyerParams) (hts : Grid) (w h : ℤ)
    (d : Droplet) (rv : ℝ) : ℝ :=
  d.posX + (beyerDir p hts w h d rv).1

/-- Post-move y position `origPosition.y + direction.y`. -/
noncomputable def beyerNewY (p : BeyerParams) (hts : Grid) (w h : ℤ)
    (d : Droplet) (rv : ℝ) : ℝ :=
  d.posY + (beyerDir p hts w h d rv).2

/-- `heightDiff = newHeight − currentHeight`. -/
noncomputable def beyerHeightDiff (p : BeyerParams) (hts : Grid) (w h : ℤ)
    (d : Droplet) (rv : ℝ) : ℝ :=
  interpolateHeight hts w h (beyerNewX p hts w h d rv) (beyerNewY p hts w h d rv)
    - interpolateHeight hts w h d.posX d.posY

/-- `capacity = max(−heightDiff, minSlope) · velocity · water · capacity`. -/
noncomputable def beyerCapacity (p : BeyerParams) (hts : Grid) (w h : ℤ)
    (d : Droplet) (rv : ℝ) : ℝ :=
  max (-(beyerHeightDiff p hts w h d rv)) p.minSlope
    * d.velocity * d.water * p.capacity

/-- Deposited amount: `min(sediment, heightDiff)` uphill, else
`(sediment − capacity)·depositionSpeed`, scaled by `water/initialWater`. -/
noncomputable def beyerDepositAmount (p : BeyerParams)
    (heightDiff capacity sed water initialWater : ℝ) : ℝ :=
  (if 0 < heightDiff then min sed heightDiff
    else (sed - capacity) * p.depositionSpeed) * (water / initialWater)

/-- Eroded amount: `min((capacity − sediment)·erosionSpeed, −heightDiff)`. -/
noncomputable def beyerErodeAmount (p : BeyerParams)
    (heightDiff capacity sed : ℝ) : ℝ :=
  min ((capacity - sed) * p.erosionSpeed) (-heightDiff)

/-- Result of one pass of the droplet loop body.  `dead` ends the droplet
(out-of-bounds return, stall break, or evaporation break); the final
droplet state is carried for specification purposes (the source discards
it). -/
inductive StepOutcome
  | dead (d : Droplet) (cm : Grid) (k : ℕ)
  | alive (d : Droplet) (cm : Grid) (k : ℕ)

/-- The change map after a loop pass. -/
def outcomeCm : StepOutcome → Grid
  | .dead _ cm _ => cm
  | .alive _ cm _ => cm

/-- The droplet state after a loop pass. -/
def outcomeDroplet : StepOutcome → Droplet
  | .dead d _ _ => d
  | .alive d _ _ => d

/-- Tail of the loop body after the deposit/erode branch: velocity update,
stall break (`velocity < 0.05`), evaporation, evaporation break
(`water < 0.01`). -/
noncomputable def beyerPostMove (p : BeyerParams) (dir : ℝ × ℝ)
    (newX newY heightDiff vel water sed : ℝ) (cm : Grid) (k : ℕ) : StepOutcome :=
  if (if 0 < heightDiff then max 0.1 (vel * 0.5)
      else Real.sqrt (vel ^ 2 + max 0 (-heightDiff) * p.gravity)) < 0.05 then
    .dead ⟨newX, newY, dir.1, dir.2,
      (if 0 < heightDiff then max 0.1 (vel * 0.5)
        else Real.sqrt (vel ^ 2 + max 0 (-heightDiff) * p.gravity)),
      water, sed⟩ cm k
  else if water * (1 - p.evaporationSpeed) < 0.01 then
    .dead ⟨newX, newY, dir.1, dir.2,
      (if 0 < heightDiff then max 0.1 (vel * 0.5)
        else Real.sqrt (vel ^ 2 + max 0 (-heightDiff) * p.gravity)),
      water * (1 - p.evaporationSpeed), sed⟩ cm k
  else
    .alive ⟨newX, newY, dir.1, dir.2,
      (if 0 < heightDiff then max 0.1 (vel * 0.5)
        else Real.sqrt (vel ^ 2 + max 0 (-heightDiff) * p.gravity)),
      water * (1 - p.evaporationSpeed), sed⟩ cm k

/-- One pass of the droplet loop body of `simulateDroplet`. -/
noncomputable def beyerStep (p : BeyerParams) (seq : ℕ → ℝ) (hts : Grid)
    (w h : ℤ) (initialWater : ℝ) (d : Droplet) (cm : Grid) (k : ℕ) :
    StepOutcome :=
  let k' := if vlen2 (beyerBlendDir p hts w h d).1 (beyerBlendDir p hts w h d).2
      < beyerEPSILON then k + 1 else k
  let dir := beyerDir p hts w h d (seq k)
  let newX := beyerNewX p hts w h d (seq k)
  let newY := beyerNewY p hts w h d (seq k)
  if newX < 0 ∨ (w : ℝ) ≤ newX ∨ newY < 0 ∨ (h : ℝ) ≤ newY
      ∨ (dir.1 = 0 ∧ dir.2 = 0) then
    .dead { d with posX := newX, posY := newY, dirX := dir.1, dirY := dir.2 } cm k'
  else
    if 0 < beyerHeightDiff p hts w h d (seq k)
        ∨ beyerCapacity p hts w h d (seq k) < d.sediment then
      beyerPostMove p dir newX newY (beyerHeightDiff p hts w h d (seq k))
        d.velocity d.water
        (d.sediment - beyerDepositAmount p (beyerHeightDiff p hts w h d (seq k))
          (beyerCapacity p hts w h d (seq k)) d.sediment d.water initialWater)
        (depositSediment cm w h d.posX d.posY p.depositionRadius
          (beyerDepositAmount p (beyerHeightDiff p hts w h d (seq k))
            (beyerCapacity p hts w h d (seq k)) d.sediment d.water initialWater))
        k'
    else
      beyerPostMove p dir newX newY (beyerHeightDiff p hts w h d (seq k))
        d.velocity d.water
        (d.sediment + beyerErodeAmount p (beyerHeightDiff p hts w h d (seq k))
          (beyerCapacity p hts w h d (seq k)) d.sediment)
        (erodeTerrain cm w h d.posX d.posY p.erosionRadius
          (beyerErodeAmount p (beyerHeightDiff p hts w h d (seq k))
            (beyerCapacity p hts w h d (seq k)) d.sediment))
        k'

/-- The droplet's `for (step = 0; step < dropletMaxPath; step++)` loop. -/
noncomputable def beyerLoop (p : BeyerParams) (seq : ℕ → ℝ) (hts : Grid)
    (w h : ℤ) (initialWater : ℝ) :
    ℕ → Droplet → Grid → ℕ → Grid × ℕ
  | 0, _, cm, k => (cm, k)
  | fuel + 1, d, cm, k =>
    match beyerStep p seq hts w h initialWater d cm k with
    | .dead _ cm' k' => (cm', k')
    | .alive d' cm' k' => beyerLoop p seq hts w h initialWater fuel d' cm' k'

/-- `simulateDroplet(heights, changeMap, width, height)`: spawn at a random
position with randomised water and lifetime, then run the step loop.
Returns the updated change map and RNG cursor (Beyer droplets write only
to the change map). -/
noncomputable def simulateDroplet (p : BeyerParams) (seq : ℕ → ℝ)
    (hts cm : Grid) (w h : ℤ) (k : ℕ) : Grid × ℕ :=
  beyerLoop p seq hts w h
    (p.minWater + seq (k + 2) * (p.maxWater - p.minWater))
    (⌊p.maxPath * (p.minLifetime + seq (k + 3) * (p.maxLifetime - p.minLifetime))⌋).toNat
    ⟨seq k * w, seq (k + 1) * h, 0, 0, 1,
      p.minWater + seq (k + 2) * (p.maxWater - p.minWater), 0⟩
    cm (k + 4)

/-- `erode(heights, width, height)`: fresh zero change map, `iterations`
droplets, then the blur-blend merge into the height buffer. -/
noncomputable def erode (p : BeyerParams) (seq : ℕ → ℝ) (hts : Grid)
    (w h : ℤ) : Grid :=
  applyChangeMapWithBlur p.enableBlurring p.blurRadius p.blendFactor hts
    ((List.range p.iterations).foldl
      (fun acc _ => simulateDroplet p seq hts acc.1 w h acc.2) (zeroGrid, 0)).1
    w h

/-! ### Ridge-follower step facts -/

/-- C6: in every ridge-follower droplet step in which the droplet survives
the bounds check and either moves uphill (`heightDiff > 0`) or carries
more sediment than its capacity, the change map receives exactly a
`depositSediment` brush application at the pre-move position with the
deposition radius, for the amount `min(sediment, heightDiff)` (uphill) or
`(sediment − capacity)·depositionSpeed` (overflow) scaled by
`water/initialWater`, and that amount is subtracted from the droplet's
carried sediment. -/
theorem beyer_step_deposit (p : BeyerParams) (seq : ℕ → ℝ) (hts : Grid)
    (w h : ℤ) (initialWater : ℝ) (d : Droplet) (cm : Grid) (k : ℕ)
    (hb : ¬ (beyerNewX p hts w h d (seq k) < 0
        ∨ (w : ℝ) ≤ beyerNewX p hts w h d (seq k)
        ∨ beyerNewY p hts w h d (seq k) < 0
        ∨ (h : ℝ) ≤ beyerNewY p hts w h d (seq k)
        ∨ ((beyerDir p hts w h d (seq k)).1 = 0 ∧ (beyerDir p hts w h d (seq k)).2 = 0)))
    (hdep : 0 < beyerHeightDiff p hts w h d (seq k)
        ∨ beyerCapacity p hts w h d (seq k) < d.sediment) :
    outcomeCm (beyerStep p seq hts w h initialWater d cm k)
      = depositSediment cm w h d.posX d.posY p.depositionRadius
          (beyerDepositAmount p (beyerHeightDiff p hts w h d (seq k))
            (beyerCapacity p hts w h d (seq k)) d.sediment d.water initialWater)
    ∧ (outcomeDroplet (beyerStep p seq hts w h initialWater d cm k)).sediment
      = d.sediment - beyerDepositAmount p (beyerHeightDiff p hts w h d (seq k))
          (beyerCapacity p hts w h d (seq k)) d.sediment d.water initialWater := by
  simp only [beyerStep]
  rw [if_neg hb, if_pos hdep]
  unfold beyerPostMove
  split_ifs <;> exact ⟨rfl, rfl⟩

/-- Parameters for the C6 witness scenario: `inertia = 1`, `minSlope = 0`,
`depositionSpeed = 0.5`. -/
noncomputable def wBeyerParams : BeyerParams :=
  ⟨1, 1, 2, 0, 0.3, 0.5, 0.02, 4, 8, 2, 2, 0.5, 1.5, 0.7, 1.3, true, 1, 0.5⟩

/-- Droplet for the C6 witness scenario: position `(1.2, 1.3)`, direction
`(1, 0)`, carrying 10 units of sediment. -/
noncomputable def wBeyerDroplet : Droplet := ⟨1.2, 1.3, 1, 0, 1, 1, 10⟩

theorem wBeyer_gradient :
    calculateGradient zeroGrid 5 5 wBeyerDroplet.posX wBeyerDroplet.posY = (0, 0) := by
  simp [calculateGradient, zeroGrid]

theorem wBeyer_vlen : vlen2 1 0 = 1 := by
  unfold vlen2
  norm_num

theorem wBeyer_blendDir :
    beyerBlendDir wBeyerParams zeroGrid 5 5 wBeyerDroplet = (1, 0) := by
  unfold beyerBlendDir
  rw [wBeyer_gradient]
  have harg1 : wBeyerDroplet.dirX * wBeyerParams.inertia
      - ((0 : ℝ), (0 : ℝ)).1 * (1 - wBeyerParams.inertia) = 1 := by
    unfold wBeyerDroplet wBeyerParams
    norm_num
  have harg2 : wBeyerDroplet.dirY * wBeyerParams.inertia
      - ((0 : ℝ), (0 : ℝ)).2 * (1 - wBeyerParams.inertia) = 0 := by
    unfold wBeyerDroplet wBeyerParams
    norm_num
  rw [harg1, harg2]
  unfold normalize2
  rw [wBeyer_vlen]
  norm_num

theorem wBeyer_dir :
    beyerDir wBeyerParams zeroGrid 5 5 wBeyerDroplet 0 = (1, 0) := by
  unfold beyerDir beyerEPSILON
  rw [wBeyer_blendDir]
  rw [if_neg (by rw [wBeyer_vlen]; norm_num)]

theorem wBeyer_newX :
    beyerNewX wBeyerParams zeroGrid 5 5 wBeyerDroplet 0 = 1.2 + 1 := by
  unfold beyerNewX
  rw [wBeyer_dir]
  unfold wBeyerDroplet
  norm_num

theorem wBeyer_newY :
    beyerNewY wBeyerParams zeroGrid 5 5 wBeyerDroplet 0 = 1.3 + 0 := by
  unfold beyerNewY
  rw [wBeyer_dir]
  unfold wBeyerDroplet
  norm_num

theorem wBeyer_heightDiff :
    beyerHeightDiff wBeyerParams zeroGrid 5 5 wBeyerDroplet 0 = 0 := by
  unfold beyerHeightDiff
  simp [interpolateHeight, zeroGrid]

theorem wBeyer_capacity :
    beyerCapacity wBeyerParams zeroGrid 5 5 wBeyerDroplet 0 = 0 := by
  unfold beyerCapacity
  rw [wBeyer_heightDiff]
  unfold wBeyerParams
  norm_num

/-- Witness for C6 at a concrete input: flat `5 × 5` grid, droplet at
`(1.2, 1.3)` moving to `(2.2, 1.3)` with sediment 10 over capacity 0. -/
theorem beyer_step_deposit_witness :
    (¬ (beyerNewX wBeyerParams zeroGrid 5 5 wBeyerDroplet 0 < 0
        ∨ (5 : ℝ) ≤ beyerNewX wBeyerParams zeroGrid 5 5 wBeyerDroplet 0
        ∨ beyerNewY wBeyerParams zeroGrid 5 5 wBeyerDroplet 0 < 0
        ∨ (5 : ℝ) ≤ beyerNewY wBeyerParams zeroGrid 5 5 wBeyerDroplet 0
        ∨ ((beyerDir wBeyerParams zeroGrid 5 5 wBeyerDroplet 0).1 = 0
            ∧ (beyerDir wBeyerParams zeroGrid 5 5 wBeyerDroplet 0).2 = 0)))
    ∧ (0 < beyerHeightDiff wBeyerParams zeroGrid 5 5 wBeyerDroplet 0
        ∨ beyerCapacity wBeyerParams zeroGrid 5 5 wBeyerDroplet 0
            < wBeyerDroplet.sediment)
    ∧ (outcomeCm (beyerStep wBeyerParams (fun _ => 0) zeroGrid 5 5 1 wBeyerDroplet zeroGrid 0)
        = depositSediment zeroGrid 5 5 wBeyerDroplet.posX wBeyerDroplet.posY
            wBeyerParams.depositionRadius
            (beyerDepositAmount wBeyerParams
              (beyerHeightDiff wBeyerParams zeroGrid 5 5 wBeyerDroplet 0)
              (beyerCapacity wBeyerParams zeroGrid 5 5 wBeyerDroplet 0)
              wBeyerDroplet.sediment wBeyerDroplet.water 1)
      ∧ (outcomeDroplet (beyerStep wBeyerParams (fun _ => 0) zeroGrid 5 5 1
            wBeyerDroplet zeroGrid 0)).sediment
        = wBeyerDroplet.sediment - beyerDepositAmount wBeyerParams
            (beyerHeightDiff wBeyerParams zeroGrid 5 5 wBeyerDroplet 0)
            (beyerCapacity wBeyerParams zeroGrid 5 5 wBeyerDroplet 0)
            wBeyerDroplet.sediment wBeyerDroplet.water 1) := by
  have hb : ¬ (beyerNewX wBeyerParams zeroGrid 5 5 wBeyerDroplet 0 < 0
      ∨ (5 : ℝ) ≤ beyerNewX wBeyerParams zeroGrid 5 5 wBeyerDroplet 0
      ∨ beyerNewY wBeyerParams zeroGrid 5 5 wBeyerDroplet 0 < 0
      ∨ (5 : ℝ) ≤ beyerNewY wBeyerParams zeroGrid 5 5 wBeyerDroplet 0
      ∨ ((beyerDir wBeyerParams zeroGrid 5 5 wBeyerDroplet 0).1 = 0
          ∧ (beyerDir wBeyerParams zeroGrid 5 5 wBeyerDroplet 0).2 = 0)) := by
    rw [wBeyer_newX, wBeyer_newY, wBeyer_dir]
    norm_num
  have hdep : 0 < beyerHeightDiff wBeyerParams zeroGrid 5 5 wBeyerDroplet 0
      ∨ beyerCapacity wBeyerParams zeroGrid 5 5 wBeyerDroplet 0
          < wBeyerDroplet.sediment := by
    right
    rw [wBeyer_capacity]
    unfold wBeyerDroplet
    norm_num
  exact ⟨hb, hdep,
    beyer_step_deposit wBeyerParams (fun _ => 0) zeroGrid 5 5 1 wBeyerDroplet
      zeroGrid 0 hb hdep⟩

/-! ## Index bounds of buffer accesses (Boundary safety)

`calculateGradient` / `interpolateHeight` read the flat indices
`cy*width+cx`, `cy*width+cx+1`, `(cy+1)*width+cx`, `(cy+1)*width+cx+1`
with `cx, cy` the clamped floor coordinates, and the brush routines write
only indices `y*width+x` of their in-grid qualifying cells. -/

/-- The four flat indices read by a bilinear corner lookup at a position. -/
noncomputable def cornerReadIndices (w h : ℤ) (px py : ℝ) : List ℤ :=
  [flatIdx w (clampCo ⌊px⌋ w) (clampCo ⌊py⌋ h),
   flatIdx w (clampCo ⌊px⌋ w + 1) (clampCo ⌊py⌋ h),
   flatIdx w (clampCo ⌊px⌋ w) (clampCo ⌊py⌋ h + 1),
   flatIdx w (clampCo ⌊px⌋ w + 1) (clampCo ⌊py⌋ h + 1)]

theorem flatIdx_in_bounds {w h x y : ℤ} (hg : inGrid w h x y) :
    0 ≤ flatIdx w x y ∧ flatIdx w x y < w * h := by
  obtain ⟨hx0, hxw, hy0, hyh⟩ := hg
  unfold flatIdx
  constructor
  · nlinarith
  · nlinarith [mul_le_mul_of_nonneg_right (show y ≤ h - 1 by omega)
      (show (0 : ℤ) ≤ w by omega)]

theorem clampCo_bounds {v dim : ℤ} (hdim : 2 ≤ dim) :
    0 ≤ clampCo v dim ∧ clampCo v dim ≤ dim - 2 := by
  unfold clampCo
  constructor
  · exact le_max_left 0 _
  · exact max_le (by omega) (le_trans (min_le_right _ _) (le_refl _))

theorem mem_brushCells_inGrid {w h cx cy r : ℤ} {d : ℤ × ℤ}
    (hd : d ∈ brushCells w h cx cy r) : inGrid w h (cx + d.1) (cy + d.2) :=
  ((Finset.mem_filter.mp hd).2).1

/-- C9: on a grid with `width, height ≥ 2`, every buffer access performed
during a ridge-follower step stays inside `[0, width*height)`: the four
flat indices of a bilinear corner lookup at any (even out-of-grid)
position are in range — the clamp to `[0, dim−2]` keeps the `+1` corners
in range — and every change-map index written by a radius-brush call is
the flat index of an in-grid cell, hence in range. -/
theorem droplet_access_in_bounds (w h : ℤ) (hw : 2 ≤ w) (hh : 2 ≤ h) :
    (∀ (px py : ℝ), ∀ i ∈ cornerReadIndices w h px py, 0 ≤ i ∧ i < w * h)
    ∧ (∀ (cx cy r : ℤ), ∀ d ∈ brushCells w h cx cy r,
        0 ≤ flatIdx w (cx + d.1) (cy + d.2)
        ∧ flatIdx w (cx + d.1) (cy + d.2) < w * h) := by
  constructor
  · intro px py i hi
    obtain ⟨hcx0, hcxw⟩ := clampCo_bounds (v := ⌊px⌋) hw
    obtain ⟨hcy0, hcyh⟩ := clampCo_bounds (v := ⌊py⌋) hh
    simp only [cornerReadIndices, List.mem_cons, List.not_mem_nil, or_false] at hi
    rcases hi with hi | hi | hi | hi <;> rw [hi] <;>
      exact flatIdx_in_bounds ⟨by omega, by omega, by omega, by omega⟩
  · intro cx cy r d hd
    exact flatIdx_in_bounds (mem_brushCells_inGrid hd)

/-- Witness for C9 at the spec's scenario: `width = height = 16` with a
droplet spawned at the grid corner `(0, 0)` (each of the at most
`maxPath = 8` steps accesses the buffers only through corner lookups and
brush writes, which this instantiation covers for all positions at once). -/
theorem droplet_access_in_bounds_witness :
    ((2 : ℤ) ≤ 16 ∧ (2 : ℤ) ≤ 16)
    ∧ ((∀ (px py : ℝ), ∀ i ∈ cornerReadIndices 16 16 px py, 0 ≤ i ∧ i < 16 * 16)
      ∧ (∀ (cx cy r : ℤ), ∀ d ∈ brushCells 16 16 cx cy r,
          0 ≤ flatIdx 16 (cx + d.1) (cy + d.2)
          ∧ flatIdx 16 (cx + d.1) (cy + d.2) < 16 * 16)) :=
  ⟨⟨by norm_num, by norm_num⟩, droplet_access_in_bounds 16 16 (by norm_num) (by norm_num)⟩

/-! ## Physics-based droplet (`PBErosion` in `WorkerManager.ts`) -/

/-- `IErosionParams` of the physics-based model (minus `randomFn`/seed,
threaded separately). -/
structure PBParams where
  iterations : ℕ
  dt : ℝ
  density : ℝ
  evaporationRate : ℝ
  depositionRate : ℝ
  minVolume : ℝ
  friction : ℝ
  heightScale : ℝ

/-- The physics-based droplet: position, direction (velocity vector),
volume, sediment. -/
structure PBDroplet where
  posX : ℝ
  posY : ℝ
  dirX : ℝ
  dirY : ℝ
  volume : ℝ
  sediment : ℝ

/-- `THREE.Vector3`. -/
structure Vec3 where
  x : ℝ
  y : ℝ
  z : ℝ

/-- `THREE.Vector3.length()`. -/
noncomputable def vlen3 (v : Vec3) : ℝ := Real.sqrt (v.x ^ 2 + v.y ^ 2 + v.z ^ 2)

/-- `THREE.Vector3.normalize()`: `divideScalar(length || 1)` — a zero
vector is left unchanged. -/
noncomputable def normalize3 (v : Vec3) : Vec3 :=
  if vlen3 v = 0 then v else ⟨v.x / vlen3 v, v.y / vlen3 v, v.z / vlen3 v⟩

/-- `THREE.Vector3.add`. -/
def add3 (a b : Vec3) : Vec3 := ⟨a.x + b.x, a.y + b.y, a.z + b.z⟩

/-- `THREE.Vector3.multiplyScalar`. -/
def smul3 (c : ℝ) (v : Vec3) : Vec3 := ⟨c * v.x, c * v.y, c * v.z⟩

/-- `centralDiffNormal(heightMap, width, height, i, j, verticalScale)`:
edge-clamped central-difference normal `normalize(-dz/dx, 1, -dz/dy)`. -/
noncomputable def centralDiffNormal (hts : Grid) (w h : ℤ) (i j : ℤ)
    (vs : ℝ) : Vec3 :=
  let ix0 := max 1 (min (w - 2) i)
  let jy0 := max 1 (min (h - 2) j)
  let dzdx := (hts (ix0 + 1, jy0) - hts (ix0 - 1, jy0)) * 0.5 * vs
  let dzdy := (hts (ix0, jy0 + 1) - hts (ix0, jy0 - 1)) * 0.5 * vs
  normalize3 ⟨-dzdx, 1, -dzdy⟩

/-- `surfaceNormal(heightMap, width, height, i, j, verticalScale)`:
weighted, unnormalised sum of four cardinal facet normals (weight 0.15)
and four diagonal facet normals (weight 0.10, horizontal step `√2`);
border cells fall back to the central-difference normal. -/
noncomputable def surfaceNormal (hts : Grid) (w h : ℤ) (i j : ℤ)
    (vs : ℝ) : Vec3 :=
  if i ≤ 0 ∨ w - 1 ≤ i ∨ j ≤ 0 ∨ h - 1 ≤ j then
    centralDiffNormal hts w h i j vs
  else
    add3 (smul3 0.15 (normalize3 ⟨vs * (hts (i, j) - hts (i + 1, j)), 1, 0⟩))
    (add3 (smul3 0.15 (normalize3 ⟨vs * (hts (i - 1, j) - hts (i, j)), 1, 0⟩))
    (add3 (smul3 0.15 (normalize3 ⟨0, 1, vs * (hts (i, j) - hts (i, j + 1))⟩))
    (add3 (smul3 0.15 (normalize3 ⟨0, 1, vs * (hts (i, j - 1) - hts (i, j))⟩))
    (add3 (smul3 0.10 (normalize3
      ⟨vs * (hts (i, j) - hts (i + 1, j + 1)) / Real.sqrt 2, Real.sqrt 2,
        vs * (hts (i, j) - hts (i + 1, j + 1)) / Real.sqrt 2⟩))
    (add3 (smul3 0.10 (normalize3
      ⟨vs * (hts (i, j) - hts (i + 1, j - 1)) / Real.sqrt 2, Real.sqrt 2,
        vs * (hts (i, j) - hts (i + 1, j - 1)) / Real.sqrt 2⟩))
    (add3 (smul3 0.10 (normalize3
      ⟨vs * (hts (i, j) - hts (i - 1, j + 1)) / Real.sqrt 2, Real.sqrt 2,
        vs * (hts (i, j) - hts (i - 1, j + 1)) / Real.sqrt 2⟩))
          (smul3 0.10 (normalize3
      ⟨vs * (hts (i, j) - hts (i - 1, j - 1)) / Real.sqrt 2, Real.sqrt 2,
        vs * (hts (i, j) - hts (i - 1, j - 1)) / Real.sqrt 2⟩))))))))

/-- Velocity after slope acceleration:
`direction += dt · normal.{x,z} · (1/(volume·density))`. -/
noncomputable def pbNewDir (p : PBParams) (hts : Grid) (w h : ℤ)
    (s : PBDroplet) : ℝ × ℝ :=
  (s.dirX + p.dt * (surfaceNormal hts w h ⌊s.posX⌋ ⌊s.posY⌋ p.heightScale).x
      * (1 / (s.volume * p.density)),
   s.dirY + p.dt * (surfaceNormal hts w h ⌊s.posX⌋ ⌊s.posY⌋ p.heightScale).z
      * (1 / (s.volume * p.density)))

/-- Integrated position `position += dt · direction`. -/
noncomputable def pbNewPos (p : PBParams) (hts : Grid) (w h : ℤ)
    (s : PBDroplet) : ℝ × ℝ :=
  (s.posX + p.dt * (pbNewDir p hts w h s).1,
   s.posY + p.dt * (pbNewDir p hts w h s).2)

/-- Velocity after friction `direction *= (1 − dt·friction)`. -/
noncomputable def pbFricDir (p : PBParams) (hts : Grid) (w h : ℤ)
    (s : PBDroplet) : ℝ × ℝ :=
  ((pbNewDir p hts w h s).1 * (1 - p.dt * p.friction),
   (pbNewDir p hts w h s).2 * (1 - p.dt * p.friction))

/-- Sediment capacity
`max(0, volume · hypot(direction) · (heightAtOldCell − heightAtNewCell))`,
with the direction after friction and the cells the floors of the old and
new positions. -/
noncomputable def pbCapacity (p : PBParams) (hts : Grid) (w h : ℤ)
    (s : PBDroplet) : ℝ :=
  max 0 (s.volume
    * Real.sqrt ((pbFricDir p hts w h s).1 ^ 2 + (pbFricDir p hts w h s).2 ^ 2)
    * (hts (⌊s.posX⌋, ⌊s.posY⌋)
        - hts (⌊(pbNewPos p hts w h s).1⌋, ⌊(pbNewPos p hts w h s).2⌋)))

/-- Result of one pass of the `while (volume > minVolume)` body: `broke`
ends the droplet (bounds break), `stepped` completes the pass. -/
inductive PBOutcome
  | broke (s : PBDroplet) (hts : Grid)
  | stepped (s : PBDroplet) (hts : Grid)

/-- The droplet after a pass. -/
def pbOutDroplet : PBOutcome → PBDroplet
  | .broke s _ => s
  | .stepped s _ => s

/-- The height buffer after a pass. -/
def pbOutHts : PBOutcome → Grid
  | .broke _ hts => hts
  | .stepped _ hts => hts

/-- One pass of the `while` body of `PBErosion.simulateDroplet`:
interior check, slope acceleration, integration, friction, bounds check,
capacity, sediment update toward capacity, direct single-cell height
write at the old integer cell, evaporation. -/
noncomputable def pbIter (p : PBParams) (w h : ℤ) (hts : Grid)
    (s : PBDroplet) : PBOutcome :=
  if ⌊s.posX⌋ < 1 ∨ w - 1 ≤ ⌊s.posX⌋ ∨ ⌊s.posY⌋ < 1 ∨ h - 1 ≤ ⌊s.posY⌋ then
    .broke s hts
  else if (pbNewPos p hts w h s).1 < 0 ∨ (w : ℝ) ≤ (pbNewPos p hts w h s).1
      ∨ (pbNewPos p hts w h s).2 < 0 ∨ (h : ℝ) ≤ (pbNewPos p hts w h s).2 then
    .broke { s with posX := (pbNewPos p hts w h s).1,
                    posY := (pbNewPos p hts w h s).2,
                    dirX := (pbFricDir p hts w h s).1,
                    dirY := (pbFricDir p hts w h s).2 } hts
  else
    .stepped
      ⟨(pbNewPos p hts w h s).1, (pbNewPos p hts w h s).2,
        (pbFricDir p hts w h s).1, (pbFricDir p hts w h s).2,
        s.volume * (1 - p.dt * p.evaporationRate),
        s.sediment + p.dt * p.depositionRate * (pbCapacity p hts w h s - s.sediment)⟩
      (fun q => if q = (⌊s.posX⌋, ⌊s.posY⌋) then
          hts (⌊s.posX⌋, ⌊s.posY⌋)
            - p.dt * s.volume * p.depositionRate * (pbCapacity p hts w h s - s.sediment)
        else hts q)

/-- The `while (volume > minVolume)` loop, with recursion fuel and a flag
recording whether the loop has exited (condition false or bounds break)
within the given fuel. -/
noncomputable def pbLoop (p : PBParams) (w h : ℤ) :
    ℕ → PBDroplet → Grid → PBDroplet × Grid × Bool
  | 0, s, hts => if p.minVolume < s.volume then (s, hts, false) else (s, hts, true)
  | fuel + 1, s, hts =>
    if p.minVolume < s.volume then
      match pbIter p w h hts s with
      | .broke s' hts' => (s', hts', true)
      | .stepped s' hts' => pbLoop p w h fuel s' hts'
    else (s, hts, true)

/-- `PBErosion.usesChangeMap = false`. -/
def pbUsesChangeMap : Bool := false

/-- `PBErosion.applyChanges`: a no-op by design — writes go directly to
the height buffer. -/
def pbApplyChanges (hts : Grid) (_w _h : ℤ) : Grid := hts

/-- `PBErosion.simulateDroplet`: spawn at a random position with unit
volume and zero velocity, then run the loop (with the given fuel bound);
returns the updated height buffer and RNG cursor. -/
noncomputable def pbSimulateDroplet (p : PBParams) (seq : ℕ → ℝ) (fuel : ℕ)
    (hts : Grid) (w h : ℤ) (k : ℕ) : Grid × ℕ :=
  ((pbLoop p w h fuel ⟨seq k * w, seq (k + 1) * h, 0, 0, 1, 0⟩ hts).2.1, k + 2)

/-- `PBErosion.erode`: `iterations` droplets in sequence, mutating the
height buffer directly. -/
noncomputable def pbErode (p : PBParams) (seq : ℕ → ℝ) (fuel : ℕ)
    (hts : Grid) (w h : ℤ) : Grid :=
  ((List.range p.iterations).foldl
    (fun acc _ => pbSimulateDroplet p seq fuel acc.1 w h acc.2) (hts, 0)).1

/-! ### Physics-based step facts -/

/-- C7: in every completed pass of the physics-based droplet loop, the
sediment capacity is `max(0, volume · |velocity| · (hOldCell − hNewCell))`,
the sediment moves toward capacity by `dt·depositionRate·(capacity −
sediment)`, the corresponding elevation delta is written directly into the
height buffer at the old integer cell only (no other cell changes), and
this strategy's `usesChangeMap` is `false` with `applyChanges` a no-op. -/
theorem pb_step_updates (p : PBParams) (w h : ℤ) (hts : Grid) (s : PBDroplet)
    (h1 : ¬ (⌊s.posX⌋ < 1 ∨ w - 1 ≤ ⌊s.posX⌋ ∨ ⌊s.posY⌋ < 1 ∨ h - 1 ≤ ⌊s.posY⌋))
    (h2 : ¬ ((pbNewPos p hts w h s).1 < 0 ∨ (w : ℝ) ≤ (pbNewPos p hts w h s).1
        ∨ (pbNewPos p hts w h s).2 < 0 ∨ (h : ℝ) ≤ (pbNewPos p hts w h s).2)) :
    pbCapacity p hts w h s
      = max 0 (s.volume
          * Real.sqrt ((pbFricDir p hts w h s).1 ^ 2 + (pbFricDir p hts w h s).2 ^ 2)
          * (hts (⌊s.posX⌋, ⌊s.posY⌋)
              - hts (⌊(pbNewPos p hts w h s).1⌋, ⌊(pbNewPos p hts w h s).2⌋)))
    ∧ (pbOutDroplet (pbIter p w h hts s)).sediment
      = s.sediment + p.dt * p.depositionRate * (pbCapacity p hts w h s - s.sediment)
    ∧ pbOutHts (pbIter p w h hts s) (⌊s.posX⌋, ⌊s.posY⌋)
      = hts (⌊s.posX⌋, ⌊s.posY⌋)
        - p.dt * s.volume * p.depositionRate * (pbCapacity p hts w h s - s.sediment)
    ∧ (∀ q, q ≠ (⌊s.posX⌋, ⌊s.posY⌋) → pbOutHts (pbIter p w h hts s) q = hts q)
    ∧ pbUsesChangeMap = false
    ∧ (∀ buf, pbApplyChanges buf w h = buf) := by
  have hit : pbIter p w h hts s = PBOutcome.stepped
      ⟨(pbNewPos p hts w h s).1, (pbNewPos p hts w h s).2,
        (pbFricDir p hts w h s).1, (pbFricDir p hts w h s).2,
        s.volume * (1 - p.dt * p.evaporationRate),
        s.sediment + p.dt * p.depositionRate * (pbCapacity p hts w h s - s.sediment)⟩
      (fun q => if q = (⌊s.posX⌋, ⌊s.posY⌋) then
          hts (⌊s.posX⌋, ⌊s.posY⌋)
            - p.dt * s.volume * p.depositionRate * (pbCapacity p hts w h s - s.sediment)
        else hts q) := by
    unfold pbIter
    rw [if_neg h1, if_neg h2]
  refine ⟨rfl, ?_, ?_, ?_, rfl, fun _ => rfl⟩
  · rw [hit]; rfl
  · rw [hit]; simp [pbOutHts]
  · intro q hq
    rw [hit]
    simp only [pbOutHts]
    rw [if_neg hq]

theorem normalize3_x_eq_zero {v : Vec3} (hx : v.x = 0) : (normalize3 v).x = 0 := by
  unfold normalize3
  split_ifs
  · exact hx
  · simp only
    rw [hx, zero_div]

theorem normalize3_z_eq_zero {v : Vec3} (hz : v.z = 0) : (normalize3 v).z = 0 := by
  unfold normalize3
  split_ifs
  · exact hz
  · simp only
    rw [hz, zero_div]

theorem surfaceNormal_const (c : ℝ) (w h i j : ℤ) (vs : ℝ)
    (hint : ¬ (i ≤ 0 ∨ w - 1 ≤ i ∨ j ≤ 0 ∨ h - 1 ≤ j)) :
    (surfaceNormal (fun _ => c) w h i j vs).x = 0
    ∧ (surfaceNormal (fun _ => c) w h i j vs).z = 0 := by
  unfold surfaceNormal
  rw [if_neg hint]
  have hc : vs * (c - c) = 0 := by ring
  have hc2 : vs * (c - c) / Real.sqrt 2 = 0 := by rw [hc]; exact zero_div _
  simp only [hc, hc2]
  have hx1 : ∀ (a : ℝ), (normalize3 ⟨0, a, 0⟩).x = 0 :=
    fun a => normalize3_x_eq_zero rfl
  have hz1 : ∀ (a : ℝ), (normalize3 ⟨0, a, 0⟩).z = 0 :=
    fun a => normalize3_z_eq_zero rfl
  constructor <;> simp [add3, smul3, hx1, hz1]

/-- Parameters for the C7/C10 witness scenarios. -/
noncomputable def wPBParams : PBParams := ⟨1, 1, 1, 0.5, 0.5, 0.01, 0.5, 1⟩

/-- Droplet for the C7 witness scenario: at `(1.5, 1.5)` at rest on a flat
`4 × 4` grid. -/
noncomputable def wPBDroplet : PBDroplet := ⟨1.5, 1.5, 0, 0, 1, 0⟩

theorem wPB_floor : ⌊(1.5 : ℝ)⌋ = 1 := by
  rw [Int.floor_eq_iff]
  norm_num

theorem wPB_newDir : pbNewDir wPBParams zeroGrid 4 4 wPBDroplet = (0, 0) := by
  unfold pbNewDir
  have hpx : wPBDroplet.posX = 1.5 := rfl
  have hpy : wPBDroplet.posY = 1.5 := rfl
  rw [hpx, hpy, wPB_floor]
  have hn := surfaceNormal_const 0 4 4 1 1 wPBParams.heightScale (by decide)
  have hz : zeroGrid = (fun _ => (0 : ℝ)) := rfl
  rw [hz, hn.1, hn.2]
  unfold wPBDroplet
  norm_num

theorem wPB_newPos : pbNewPos wPBParams zeroGrid 4 4 wPBDroplet = (1.5, 1.5) := by
  unfold pbNewPos
  rw [wPB_newDir]
  unfold wPBDroplet
  norm_num

/-- Witness for C7 at a concrete input: flat `4 × 4` grid, droplet at
`(1.5, 1.5)` with zero velocity — both bounds checks pass. -/
theorem pb_step_updates_witness :
    (¬ (⌊wPBDroplet.posX⌋ < 1 ∨ (4 : ℤ) - 1 ≤ ⌊wPBDroplet.posX⌋
        ∨ ⌊wPBDroplet.posY⌋ < 1 ∨ (4 : ℤ) - 1 ≤ ⌊wPBDroplet.posY⌋))
    ∧ (¬ ((pbNewPos wPBParams zeroGrid 4 4 wPBDroplet).1 < 0
        ∨ ((4 : ℤ) : ℝ) ≤ (pbNewPos wPBParams zeroGrid 4 4 wPBDroplet).1
        ∨ (pbNewPos wPBParams zeroGrid 4 4 wPBDroplet).2 < 0
        ∨ ((4 : ℤ) : ℝ) ≤ (pbNewPos wPBParams zeroGrid 4 4 wPBDroplet).2))
    ∧ (pbCapacity wPBParams zeroGrid 4 4 wPBDroplet
        = max 0 (wPBDroplet.volume
            * Real.sqrt ((pbFricDir wPBParams zeroGrid 4 4 wPBDroplet).1 ^ 2
                + (pbFricDir wPBParams zeroGrid 4 4 wPBDroplet).2 ^ 2)
            * (zeroGrid (⌊wPBDroplet.posX⌋, ⌊wPBDroplet.posY⌋)
                - zeroGrid (⌊(pbNewPos wPBParams zeroGrid 4 4 wPBDroplet).1⌋,
                    ⌊(pbNewPos wPBParams zeroGrid 4 4 wPBDroplet).2⌋)))
      ∧ (pbOutDroplet (pbIter wPBParams 4 4 zeroGrid wPBDroplet)).sediment
        = wPBDroplet.sediment + wPBParams.dt * wPBParams.depositionRate
            * (pbCapacity wPBParams zeroGrid 4 4 wPBDroplet - wPBDroplet.sediment)
      ∧ pbOutHts (pbIter wPBParams 4 4 zeroGrid wPBDroplet)
            (⌊wPBDroplet.posX⌋, ⌊wPBDroplet.posY⌋)
        = zeroGrid (⌊wPBDroplet.posX⌋, ⌊wPBDroplet.posY⌋)
          - wPBParams.dt * wPBDroplet.volume * wPBParams.depositionRate
              * (pbCapacity wPBParams zeroGrid 4 4 wPBDroplet - wPBDroplet.sediment)
      ∧ (∀ q, q ≠ (⌊wPBDroplet.posX⌋, ⌊wPBDroplet.posY⌋) →
          pbOutHts (pbIter wPBParams 4 4 zeroGrid wPBDroplet) q = zeroGrid q)
      ∧ pbUsesChangeMap = false
      ∧ (∀ buf, pbApplyChanges buf 4 4 = buf)) := by
  have hpx : wPBDroplet.posX = 1.5 := rfl
  have hpy : wPBDroplet.posY = 1.5 := rfl
  have h1 : ¬ (⌊wPBDroplet.posX⌋ < 1 ∨ (4 : ℤ) - 1 ≤ ⌊wPBDroplet.posX⌋
      ∨ ⌊wPBDroplet.posY⌋ < 1 ∨ (4 : ℤ) - 1 ≤ ⌊wPBDroplet.posY⌋) := by
    rw [hpx, hpy, wPB_floor]
    norm_num
  have h2 : ¬ ((pbNewPos wPBParams zeroGrid 4 4 wPBDroplet).1 < 0
      ∨ ((4 : ℤ) : ℝ) ≤ (pbNewPos wPBParams zeroGrid 4 4 wPBDroplet).1
      ∨ (pbNewPos wPBParams zeroGrid 4 4 wPBDroplet).2 < 0
      ∨ ((4 : ℤ) : ℝ) ≤ (pbNewPos wPBParams zeroGrid 4 4 wPBDroplet).2) := by
    rw [wPB_newPos]
    norm_num
  exact ⟨h1, h2, pb_step_updates wPBParams 4 4 zeroGrid wPBDroplet h1 h2⟩

/-! ### Termination of the physics-based loop -/

theorem pbIter_stepped_volume {p : PBParams} {w h : ℤ} {hts : Grid}
    {s s' : PBDroplet} {hts' : Grid}
    (hst : pbIter p w h hts s = PBOutcome.stepped s' hts') :
    s'.volume = s.volume * (1 - p.dt * p.evaporationRate) := by
  unfold pbIter at hst
  split_ifs at hst
  all_goals
    first
      | exact PBOutcome.noConfusion hst
      | (injection hst with hs hh
         rw [← hs])

theorem pbLoop_false_volume (p : PBParams) (w h : ℤ) :
    ∀ (n : ℕ) (s : PBDroplet) (hts : Grid),
      (pbLoop p w h n s hts).2.2 = false →
      p.minVolume < s.volume * (1 - p.dt * p.evaporationRate) ^ n := by
  intro n
  induction n with
  | zero =>
    intro s hts hf
    unfold pbLoop at hf
    by_cases hc : p.minVolume < s.volume
    · rw [pow_zero, mul_one]; exact hc
    · rw [if_neg hc] at hf
      simp at hf
  | succ m ih =>
    intro s hts hf
    unfold pbLoop at hf
    by_cases hc : p.minVolume < s.volume
    · rw [if_pos hc] at hf
      rcases hit : pbIter p w h hts s with ⟨s', hts'⟩ | ⟨s', hts'⟩
      · rw [hit] at hf
        simp at hf
      · rw [hit] at hf
        have hrec := ih s' hts' hf
        rw [pbIter_stepped_volume hit] at hrec
        calc p.minVolume
            < s.volume * (1 - p.dt * p.evaporationRate)
                * (1 - p.dt * p.evaporationRate) ^ m := hrec
          _ = s.volume * (1 - p.dt * p.evaporationRate) ^ (m + 1) := by ring
    · rw [if_neg hc] at hf
      simp at hf

/-- C10: the physics-based droplet loop `while (volume > minVolume)`
terminates for every height buffer and start state whenever
`dt·evaporationRate > 0` and `minVolume > 0`: each completed pass
multiplies the volume by the constant factor `1 − dt·evaporationRate < 1`,
so some finite fuel makes the loop exit. -/
theorem pb_loop_terminates (p : PBParams) (w h : ℤ) (s : PBDroplet)
    (hts : Grid) (hev : 0 < p.dt * p.evaporationRate)
    (hmv : 0 < p.minVolume) :
    ∃ n, (pbLoop p w h n s hts).2.2 = true := by
  by_cases hv : p.minVolume < s.volume
  · have hvol0 : 0 < s.volume := lt_trans hmv hv
    have hf1 : 1 - p.dt * p.evaporationRate < 1 := by linarith
    obtain ⟨n, hn⟩ := exists_pow_lt_of_lt_one (div_pos hmv hvol0) hf1
    refine ⟨n, ?_⟩
    cases hb : (pbLoop p w h n s hts).2.2 with
    | true => rfl
    | false =>
      exfalso
      have hlt := pbLoop_false_volume p w h n s hts hb
      have hub : s.volume * (1 - p.dt * p.evaporationRate) ^ n < p.minVolume := by
        rw [mul_comm]
        exact (lt_div_iff₀ hvol0).mp hn
      linarith
  · exact ⟨0, by unfold pbLoop; rw [if_neg hv]⟩

/-- Witness for C10 at a concrete input: `dt = 1`,
`evaporationRate = 0.5`, `minVolume = 0.01`, unit-volume droplet on a
flat `4 × 4` grid. -/
theorem pb_loop_terminates_witness :
    (0 < wPBParams.dt * wPBParams.evaporationRate ∧ 0 < wPBParams.minVolume)
    ∧ ∃ n, (pbLoop wPBParams 4 4 n wPBDroplet zeroGrid).2.2 = true := by
  have hev : 0 < wPBParams.dt * wPBParams.evaporationRate := by
    unfold wPBParams
    norm_num
  have hmv : 0 < wPBParams.minVolume := by
    unfold wPBParams
    norm_num
  exact ⟨⟨hev, hmv⟩, pb_loop_terminates wPBParams 4 4 wPBDroplet zeroGrid hev hmv⟩

/-! ### Determinism of the batch runs -/

/-- `PBErosion.DEFAULTS`. -/
noncomputable def PB_DEFAULTS : PBParams := ⟨200000, 1.2, 1, 0.001, 0.1, 0.01, 0.05, 1⟩

/-- C5: with the random source modelled as an explicit sequence, a full
`erode(buffer, w, h)` run is a pure function of the parameters, the
random sequence and the initial buffer — two runs from identical initial
buffers with the same random sequence produce identical outputs, for the
ridge-follower `erode` and the physics-based `erode` alike. -/
theorem erode_deterministic (pB : BeyerParams) (pP : PBParams)
    (seq : ℕ → ℝ) (fuel : ℕ) (w h : ℤ) (b1 b2 : Grid) (hb : b1 = b2) :
    erode pB seq b1 w h = erode pB seq b2 w h
    ∧ pbErode pP seq fuel b1 w h = pbErode pP seq fuel b2 w h := by
  subst hb
  exact ⟨rfl, rfl⟩

/-- Witness for C5 at a concrete input: the default parameter records,
the all-zeros random sequence, and two copies of the flat `16 × 16`
buffer. -/
theorem erode_deterministic_witness :
    (zeroGrid = zeroGrid)
    ∧ (erode DEFAULT_PARAMS (fun _ => 0) zeroGrid 16 16
        = erode DEFAULT_PARAMS (fun _ => 0) zeroGrid 16 16
      ∧ pbErode PB_DEFAULTS (fun _ => 0) 64 zeroGrid 16 16
        = pbErode PB_DEFAULTS (fun _ => 0) 64 zeroGrid 16 16) :=
  ⟨rfl, erode_deterministic DEFAULT_PARAMS PB_DEFAULTS (fun _ => 0) 64 16 16
    zeroGrid zeroGrid rfl⟩

end HydraulicErosion
